import Mathlib

/-
  Formal model of the jidoka-chatbot production agent
  (mongo_chatbot_2/server/agent.js): the question-to-query translation
  and result-enrichment pipeline.  JS strings are modelled as `List Char`
  (`String.data`), JS numbers appearing as counts/ids as `Int`/`Nat`,
  JS `Date` values as a civil date-time structure with the `Date`
  constructor's field-normalization semantics, fallible collaborator
  calls (MongoDB driver, Gemini API) as `Except`-valued oracles.
-/

/-- Questions, messages and record fields are modelled as lists of
characters (the `String.data` of the JS strings). -/
abbrev Chars := List Char

/-- ASCII lower-casing of one character. -/
def lowerChar (c : Char) : Char :=
  if 'A' ≤ c ∧ c ≤ 'Z' then Char.ofNat (c.toNat + 32) else c

/-- Models JavaScript `toLowerCase()` on the ASCII text the agent handles. -/
def lowerText (s : Chars) : Chars := s.map lowerChar

/-- `hasSub pat s`: `pat` occurs as a contiguous substring of `s`.
Models a JS regex `.test` of one literal alternative. -/
def hasSub (pat : Chars) : Chars → Bool
  | [] => pat.isEmpty
  | c :: rest => pat.isPrefixOf (c :: rest) || hasSub pat rest

/-- Any of the literal alternatives occurs (a JS `a|b|c` regex test). -/
def anySub (pats : List Chars) (s : Chars) : Bool := pats.any (fun p => hasSub p s)

/-- The suffix of `s` just after the first occurrence of `pat`
(`none` when `pat` does not occur). -/
def dropAfterFirst (pat : Chars) : Chars → Option Chars
  | [] => if pat.isEmpty then some [] else none
  | c :: rest =>
    if pat.isPrefixOf (c :: rest) then some ((c :: rest).drop pat.length)
    else dropAfterFirst pat rest

/-- Models a JS `A.*B` regex test: an occurrence of `A` followed
(anywhere later) by an occurrence of `B`.  Searching after the first
occurrence of `A` is complete: a later `A` leaves less room for `B`. -/
def hasThen (a b : Chars) (s : Chars) : Bool :=
  match dropAfterFirst a s with
  | some rest => hasSub b rest
  | none => false

/-- The single-quote character (written numerically to keep the
source free of bare apostrophes). -/
def squote : Char := Char.ofNat 39

/-- First `d`-delimited substring of the text: models the JS regex
`/d([^d]+)d/` (leftmost match, non-empty content).  At an opening
delimiter the greedy `[^d]+` takes the maximal run of non-delimiter
characters; the match succeeds iff that run is non-empty and a closing
delimiter follows, otherwise scanning resumes one character later. -/
def firstDelimited (d : Char) : Chars → Option Chars
  | [] => none
  | c :: rest =>
    if c = d then
      let content := rest.takeWhile (fun x => x != d)
      if content.length < rest.length then
        if content.isEmpty then firstDelimited d rest else some content
      else firstDelimited d rest
    else firstDelimited d rest

/-- agent.js `extractComponentName`: first single-quoted substring,
else first double-quoted substring, else first asterisk-delimited
substring, else `none`. -/
def extractComponentName (q : Chars) : Option Chars :=
  match firstDelimited squote q with
  | some c => some c
  | none =>
    match firstDelimited '"' q with
    | some c => some c
    | none => firstDelimited '*' q

/-- Word character for the JS regex class `\w` (`[A-Za-z0-9_]`). -/
def isWordChar (c : Char) : Bool := c.isAlpha || c.isDigit || c = '_'

/-- Character class `[\w_:\-]` used for captured batch identifiers. -/
def isWordColonDash (c : Char) : Bool := isWordChar c || c = ':' || c = '-'

/-- Character class `[:\s]` separating a keyword from a captured token. -/
def isSepChar (c : Char) : Bool := c = ':' || c.isWhitespace

/-- Backtracking step of `[:\s]*(CAP+)`: try the capture after dropping
`k` separator characters, giving characters back one at a time (regex
backtracking) until the one-or-more capture class succeeds. -/
def sepDescend (wordp : Char → Bool) (s : Chars) : Nat → Option Chars
  | 0 =>
    if ((s.drop 0).takeWhile wordp).isEmpty then none
    else some ((s.drop 0).takeWhile wordp)
  | k + 1 =>
    if ((s.drop (k + 1)).takeWhile wordp).isEmpty then sepDescend wordp s k
    else some ((s.drop (k + 1)).takeWhile wordp)

/-- Models the JS regex tail `[:\s]*(C+)` at a fixed position: greedy
separator run, then a greedy non-empty capture of class `C`, with
backtracking into the separator run (`:` is in both classes for batch
ids). -/
def sepCapture (wordp : Char → Bool) (s : Chars) : Option Chars :=
  sepDescend wordp s (s.takeWhile isSepChar).length

/-- Case-insensitive literal prefix test (the pattern is lower-case). -/
def lowPrefix (pat : Chars) (s : Chars) : Bool :=
  pat.isPrefixOf (lowerText (s.take pat.length))

/-- Leftmost match of `/(k1|k2)REST/i` where `REST` is handled by
`after` on the text following the keyword: at each position try `k1`
then `k2` (regex alternation order), else advance one character. -/
def scanKw2 {α : Type} (k1 k2 : Chars) (after : Chars → Option α) : Chars → Option α
  | [] => none
  | c :: rest =>
    match (if lowPrefix k1 (c :: rest) then after ((c :: rest).drop k1.length) else none) with
    | some r => some r
    | none =>
      match (if lowPrefix k2 (c :: rest) then after ((c :: rest).drop k2.length) else none) with
      | some r => some r
      | none => scanKw2 k1 k2 after rest

/-- First digit run in the text (the lazy gap `[\s\S]*?` followed by a
greedy `(\d+)` capture). -/
def firstDigitRun : Chars → Option Chars
  | [] => none
  | c :: rest =>
    if c.isDigit then some ((c :: rest).takeWhile Char.isDigit) else firstDigitRun rest

/-- Numeric value of a captured digit run (JS `parseInt` on digits). -/
def digitsToNat (l : Chars) : Nat := l.foldl (fun acc c => acc * 10 + (c.toNat - 48)) 0

/-- agent.js `query.match(/(batch|lot)[:\s]*([\w_:\-]+)/i)`: the
captured batch-id token. -/
def scanBatch (q : Chars) : Option Chars := scanKw2 ("batch".data) ("lot".data) (sepCapture isWordColonDash) q

/-- agent.js `query.match(/(component|part)[:\s]*([\w_]+)/i)`: the
captured component token of the generic path. -/
def scanComponent (q : Chars) : Option Chars := scanKw2 ("component".data) ("part".data) (sepCapture isWordChar) q

/-- agent.js `query.match(/(production|quantity)[\s\S]*?(\d+)/i)`: the
captured quantity digits. -/
def scanProduction (q : Chars) : Option Chars := scanKw2 ("production".data) ("quantity".data) firstDigitRun q

/-- agent.js `query.match(/performance|efficiency|quality/i)`. -/
def perfTest (q : Chars) : Bool :=
  anySub [("performance".data), ("efficiency".data), ("quality".data)] (lowerText q)

/-- The independent boolean intent signals of agent.js `analyzeQuery`. -/
structure QueryAnalysis where
  isBatchQuery : Bool
  isNGQuery : Bool
  needsAggregation : Bool
  isComparative : Bool
  isComponentList : Bool
  isGeneralQuery : Bool
deriving DecidableEq

/-- agent.js `analyzeQuery`: case-insensitive pattern tests against
fixed vocabularies (each regex alternation becomes a disjunction of
substring / `A.*B` tests over the lower-cased question). -/
def analyzeQuery (q : Chars) : QueryAnalysis :=
  let lq := lowerText q
  { isBatchQuery := hasThen ("batch".data) ("id".data) lq &&
      (match dropAfterFirst ("id".data) ((dropAfterFirst ("batch".data) lq).getD []) with
       | some rest => rest.any isWordColonDash
       | none => false)
    isNGQuery := anySub [("ng".data), ("not good".data), ("defect".data), ("reject".data)] lq
    needsAggregation := anySub [("most".data), ("max".data), ("maximum".data), ("highest".data),
      ("lowest".data), ("min".data), ("minimum".data), ("average".data), ("sum".data), ("total".data)] lq
    isComparative := anySub [("more".data), ("less".data), ("greater".data), ("than".data), ("compare".data)] lq
    isComponentList := hasSub ("component".data) lq || hasSub ("part".data) lq ||
      hasThen ("what".data) ("component".data) lq || hasThen ("which".data) ("component".data) lq ||
      hasThen ("list".data) ("component".data) lq
    isGeneralQuery := hasThen ("what".data) ("data".data) lq || hasThen ("which".data) ("data".data) lq ||
      hasThen ("available".data) ("data".data) lq || hasThen ("have".data) ("data".data) lq }

-- ===== defect catalog / occurrence mapping =====

/-- One entry of the defect catalog (`Defects` collection row values,
kept as text as they travel unchanged through the pipeline). -/
structure DefectInfo where
  defect_class : Chars
  description : Chars
  is_acceptable : Chars
  defect_type : Chars
deriving DecidableEq

/-- One value of the mapped-defect object built by
`mapDefectOccurrences`. -/
structure MappedDefect where
  count : Int
  description : Chars
  is_acceptable : Chars
  defect_type : Chars
deriving DecidableEq

/-- JS `a || b` on strings: the empty string is falsy. -/
def jsOr (a b : Chars) : Chars := if a.isEmpty then b else a

/-- Decimal digit character (for JS template-string number rendering). -/
def toDigitChar (n : Nat) : Char := Char.ofNat (48 + n)

/-- Fuel-driven decimal rendering of a natural number (JS template
`${defectId}`); the fuel `n + 1` always suffices. -/
def natToTextGo : Nat → Nat → Chars
  | 0, _ => []
  | fuel + 1, n =>
    if n < 10 then [toDigitChar n]
    else natToTextGo fuel (n / 10) ++ [toDigitChar (n % 10)]

def natToText (n : Nat) : Chars := natToTextGo (n + 1) n

/-- The object key under which index `i` of an occurrence array is
emitted: the catalog class name of defect id `i+1`, or the synthesized
`Unknown_Defect_{i+1}` label. -/
def defectLabel (dm : Nat → Option DefectInfo) (i : Nat) : Chars :=
  match dm (i + 1) with
  | some info => info.defect_class
  | none => "Unknown_Defect_".data ++ natToText (i + 1)

/-- The object value emitted for index `i` with count `c`. -/
def defectEntry (dm : Nat → Option DefectInfo) (dt : Chars) (i : Nat) (c : Int) : MappedDefect :=
  match dm (i + 1) with
  | some info => ⟨c, info.description, info.is_acceptable, jsOr dt info.defect_type⟩
  | none => ⟨c, "Unknown defect with ID ".data ++ natToText (i + 1), "unknown".data, jsOr dt ("unknown".data)⟩

/-- The sequence of object writes performed by the `forEach` of
agent.js `mapDefectOccurrences`, starting at index `i`: each positive
count emits one `mappedDefects[label] = value` write (the source's
`count > 0 && defectMap[id]` / `else if count > 0` branches both
require `count > 0`; the catalog lookup selects known vs unknown
shape). -/
def mapDefWrites (dm : Nat → Option DefectInfo) (dt : Chars) : Nat → List Int → List (Chars × MappedDefect)
  | _, [] => []
  | i, c :: rest =>
    if 0 < c then (defectLabel dm i, defectEntry dm dt i c) :: mapDefWrites dm dt (i + 1) rest
    else mapDefWrites dm dt (i + 1) rest

/-- agent.js `mapDefectOccurrences(defectOccurrences, defectMap,
defectType)` as its ordered write sequence (the JS object it fills is
recovered by `objGet`). -/
def mapDefectOccurrences (occ : List Int) (dm : Nat → Option DefectInfo) (dt : Chars) : List (Chars × MappedDefect) :=
  mapDefWrites dm dt 0 occ

/-- JS-object lookup over a write sequence: the last write to a key
wins. -/
def objGet (writes : List (Chars × MappedDefect)) (k : Chars) : Option MappedDefect :=
  (writes.reverse.find? (fun p => decide (p.1 = k))).map (fun p => p.2)

/-- Claim C1 as stated, for one occurrence array / catalog / category:
(i) every positive-count index `i` is present in the mapping under its
label (class name of id `i+1`, else `Unknown_Defect_{i+1}`) with its
count, description and acceptability; (ii) every emitted entry comes
from some positive-count index — no zero-count entry appears. -/
def C1Property (occ : List Int) (dm : Nat → Option DefectInfo) (dt : Chars) : Prop :=
  (∀ i ∈ List.range occ.length, 0 < occ.getD i 0 →
    objGet (mapDefectOccurrences occ dm dt) (defectLabel dm i) =
      some (defectEntry dm dt i (occ.getD i 0))) ∧
  (∀ p ∈ mapDefectOccurrences occ dm dt,
    ∃ i ∈ List.range occ.length, 0 < occ.getD i 0 ∧
      p = (defectLabel dm i, defectEntry dm dt i (occ.getD i 0)))

instance (occ : List Int) (dm : Nat → Option DefectInfo) (dt : Chars) :
    Decidable (C1Property occ dm dt) := by
  unfold C1Property
  infer_instance

-- ===== JS Date model =====

/-- A JS `Date` value in local civil time: year, 0-based month (JS
convention), 1-based day of month, and time fields. -/
structure CivilDT where
  year : Int
  month : Int
  day : Int
  hour : Int
  minute : Int
  second : Int
  ms : Int
deriving DecidableEq

/-- Gregorian leap year. -/
def isLeap (y : Int) : Bool := (y % 4 = 0 && y % 100 ≠ 0) || y % 400 = 0

/-- Days in 0-based month `m` of year `y` (months 3, 5, 8, 10 are
April, June, September, November). -/
def daysInMonth (y m : Int) : Int :=
  if m = 1 then (if isLeap y then 29 else 28)
  else if m = 3 ∨ m = 5 ∨ m = 8 ∨ m = 10 then 30 else 31

/-- Year of the month preceding `(y, m)`. -/
def pYear (y m : Int) : Int := if m = 0 then y - 1 else y

/-- The month preceding 0-based month `m`. -/
def pMonth (m : Int) : Int := if m = 0 then 11 else m - 1

/-- Year of the month following `(y, m)`. -/
def nYear (y m : Int) : Int := if m = 11 then y + 1 else y

/-- The month following 0-based month `m`. -/
def nMonth (m : Int) : Int := if m = 11 then 0 else m + 1

/-- Day-of-month normalization of the JS `Date` constructor / field
setters: borrow from or carry into adjacent months until the day is in
range.  Fuel-driven; callers pass ample fuel. -/
def normDayFuel : Nat → Int → Int → Int → Int × Int × Int
  | 0, y, m, d => (y, m, d)
  | n + 1, y, m, d =>
    if d < 1 then
      normDayFuel n (pYear y m) (pMonth m) (d + daysInMonth (pYear y m) (pMonth m))
    else if daysInMonth y m < d then
      normDayFuel n (nYear y m) (nMonth m) (d - daysInMonth y m)
    else (y, m, d)

/-- Year/month/day normalization: months reduce modulo 12 into the
year, then the day is normalized against month lengths. -/
def normYMD (y m d : Int) : Int × Int × Int :=
  normDayFuel (d.natAbs + 24) (y + m / 12) (m % 12) d

/-- Full JS `Date` field normalization: time fields cascade
(milliseconds into seconds into minutes into hours into days), then
the date part is normalized. -/
def normDT (y m d h mi s ms : Int) : CivilDT :=
  let s1 := s + ms / 1000
  let ms1 := ms % 1000
  let mi1 := mi + s1 / 60
  let s2 := s1 % 60
  let h1 := h + mi1 / 60
  let mi2 := mi1 % 60
  let d1 := d + h1 / 24
  let h2 := h1 % 24
  let ymd := normYMD y m d1
  ⟨ymd.1, ymd.2.1, ymd.2.2, h2, mi2, s2, ms1⟩

/-- JS `new Date(year, monthIndex, day, h, mi, s, ms)`. -/
def mkJSDate (y m d h mi s ms : Int) : CivilDT := normDT y m d h mi s ms

/-- JS `date.setDate(v)`. -/
def jsSetDate (t : CivilDT) (v : Int) : CivilDT :=
  normDT t.year t.month v t.hour t.minute t.second t.ms

/-- JS `date.setMilliseconds(v)`. -/
def jsSetMilliseconds (t : CivilDT) (v : Int) : CivilDT :=
  normDT t.year t.month t.day t.hour t.minute t.second v

/-- JS `date.getDay()` (0 = Sunday), via Zeller's congruence. -/
def jsGetDay (t : CivilDT) : Int :=
  let mm := t.month + 1
  let yy := if mm ≤ 2 then t.year - 1 else t.year
  let mz := if mm ≤ 2 then mm + 12 else mm
  let k := yy % 100
  let j := yy / 100
  ((t.day + (13 * (mz + 1)) / 5 + k + k / 4 + j / 4 + 5 * j) % 7 + 6) % 7

/-- A well-formed `Date` value (what `getFullYear`/`getMonth`/... of a
real JS `Date` always return). -/
def ValidDT (t : CivilDT) : Prop :=
  0 ≤ t.month ∧ t.month ≤ 11 ∧ 1 ≤ t.day ∧ t.day ≤ daysInMonth t.year t.month ∧
  0 ≤ t.hour ∧ t.hour ≤ 23 ∧ 0 ≤ t.minute ∧ t.minute ≤ 59 ∧
  0 ≤ t.second ∧ t.second ≤ 59 ∧ 0 ≤ t.ms ∧ t.ms ≤ 999

instance (t : CivilDT) : Decidable (ValidDT t) := by unfold ValidDT; infer_instance

/-- A MongoDB date predicate `{ $gte: ..., $lte: ... }`; both bounds
are inclusive ($gte / $lte). -/
structure DateRange where
  gte : CivilDT
  lte : CivilDT
deriving DecidableEq

/-- `new Date(now.getFullYear(), now.getMonth(), now.getDate())`. -/
def startOfDayD (now : CivilDT) : CivilDT := mkJSDate now.year now.month now.day 0 0 0 0

/-- `new Date(..., 23, 59, 59, 999)` of the current day. -/
def endOfDayD (now : CivilDT) : CivilDT := mkJSDate now.year now.month now.day 23 59 59 999

/-- `startOfYesterday`: copy of `startOfDay` with `setDate(getDate() - 1)`. -/
def startOfYesterdayD (now : CivilDT) : CivilDT :=
  jsSetDate (startOfDayD now) ((startOfDayD now).day - 1)

/-- `endOfYesterday`: copy of `startOfDay` with `setMilliseconds(-1)`. -/
def endOfYesterdayD (now : CivilDT) : CivilDT := jsSetMilliseconds (startOfDayD now) (-1)

/-- `startOfWeek`: copy of `startOfDay` with `setDate(getDate() - getDay())`. -/
def startOfWeekD (now : CivilDT) : CivilDT :=
  jsSetDate (startOfDayD now) ((startOfDayD now).day - jsGetDay (startOfDayD now))

/-- `startOfLastWeek`: copy of `startOfWeek` with `setDate(getDate() - 7)`. -/
def startOfLastWeekD (now : CivilDT) : CivilDT :=
  jsSetDate (startOfWeekD now) ((startOfWeekD now).day - 7)

/-- `endOfLastWeek`: copy of `startOfWeek` with `setMilliseconds(-1)`. -/
def endOfLastWeekD (now : CivilDT) : CivilDT := jsSetMilliseconds (startOfWeekD now) (-1)

/-- `new Date(now.getFullYear(), now.getMonth(), 1)`. -/
def startOfMonthD (now : CivilDT) : CivilDT := mkJSDate now.year now.month 1 0 0 0 0

/-- `new Date(now.getFullYear(), now.getMonth() - 1, 1)`. -/
def startOfLastMonthD (now : CivilDT) : CivilDT := mkJSDate now.year (now.month - 1) 1 0 0 0 0

/-- `new Date(now.getFullYear(), now.getMonth(), 0, 23, 59, 59, 999)`. -/
def endOfLastMonthD (now : CivilDT) : CivilDT := mkJSDate now.year now.month 0 23 59 59 999

/-- agent.js `getDateFilter(period)`: the `filters[period.toLowerCase()]`
table lookup (`none` models the JS `undefined` of an unknown period). -/
def getDateFilter (period : Chars) (now : CivilDT) : Option DateRange :=
  let p := lowerText period
  if p = "today".data then some ⟨startOfDayD now, endOfDayD now⟩
  else if p = "yesterday".data then some ⟨startOfYesterdayD now, endOfYesterdayD now⟩
  else if p = "this week".data then some ⟨startOfWeekD now, endOfDayD now⟩
  else if p = "last week".data then some ⟨startOfLastWeekD now, endOfLastWeekD now⟩
  else if p = "this month".data then some ⟨startOfMonthD now, endOfDayD now⟩
  else if p = "last month".data then some ⟨startOfLastMonthD now, endOfLastMonthD now⟩
  else none

/-- Specification-side vocabulary: the last instant (23:59:59.999) of
the calendar day preceding day `d` of month `(y, m)`. -/
def lastInstantOfPrevDay (y m d : Int) : CivilDT :=
  if 1 < d then ⟨y, m, d - 1, 23, 59, 59, 999⟩
  else ⟨pYear y m, pMonth m, daysInMonth (pYear y m) (pMonth m), 23, 59, 59, 999⟩

-- ===== query construction (parseQuery) =====

/-- Date separators accepted by the absolute-date pattern
`[_\/\-]`. -/
def isDateSep (c : Char) : Bool := c = '_' || c = '/' || c = '-'

/-- The absolute-date body `\d{2}[_\/\-]\d{2}[_\/\-]\d{4}` with the
trailing word boundary, tried at the head of the text; returns the
matched ten characters. -/
def absDatePat : Chars → Option Chars
  | d1 :: d2 :: s1 :: d3 :: d4 :: s2 :: y1 :: y2 :: y3 :: y4 :: rest =>
    if d1.isDigit && d2.isDigit && isDateSep s1 && d3.isDigit && d4.isDigit && isDateSep s2 &&
       y1.isDigit && y2.isDigit && y3.isDigit && y4.isDigit &&
       (match rest with | [] => true | r :: _ => !isWordChar r)
    then some [d1, d2, s1, d3, d4, s2, y1, y2, y3, y4] else none
  | _ => none

/-- Scan for the leftmost match of
`\b(\d{2}[_\/\-]\d{2}[_\/\-]\d{4})\b`; the boolean tracks whether the
previous character was a word character (the leading `\b`). -/
def scanAbsDate : Bool → Chars → Option Chars
  | _, [] => none
  | prevWord, c :: rest =>
    match (if prevWord then none else absDatePat (c :: rest)) with
    | some m => some m
    | none => scanAbsDate (isWordChar c) rest

/-- agent.js `query.match(/\b(\d{2}[_\/\-]\d{2}[_\/\-]\d{4})\b/i)`. -/
def findAbsDate (s : Chars) : Option Chars := scanAbsDate false s

/-- agent.js `dateStr.replace(/_/g, "-")`. -/
def normalizeUnderscores (s : Chars) : Chars :=
  s.map (fun c => if c = '_' then '-' else c)

/-- Batch-id predicate: literal exact match for fully-qualified ids
(containing `_`, `:` or `-`), else case-insensitive regex match. -/
inductive BatchCond
  | exact (id : Chars)
  | regexI (id : Chars)
deriving DecidableEq

/-- The `$or` condition slot of the built query (the second assignment
in the source overwrites the first). -/
inductive OrCond
  | perfQuality
  | production (n : Nat)
deriving DecidableEq

/-- The predicate object built by agent.js `parseQuery`; a `none` /
`false` field is an absent key (no constraint). `ng_parts = true`
stands for `{ $exists: true, $gt: 0 }`. -/
structure MongoQuery where
  batch_id : Option BatchCond
  component_name : Option Chars
  date : Option DateRange
  ng_parts : Bool
  orCond : Option OrCond
deriving DecidableEq

def emptyQuery : MongoQuery :=
  { batch_id := none, component_name := none, date := none, ng_parts := false, orCond := none }

/-- The date condition built by parseQuery's date-filtering block
(lines 429-447): a relative period keyword is resolved first via
`getDateFilter`; only otherwise is an absolute digit-pattern date
normalized to `-` separators, parsed by the platform (`absParse`
models `new Date(string)`, `none` = invalid), and expanded to that
day's closed interval. -/
def relKeywords : List Chars :=
  [("today".data), ("yesterday".data), ("this week".data), ("last week".data),
   ("this month".data), ("last month".data)]

/-- Leftmost regex match among literal alternatives, in alternation
order at each position. -/
def findFirstIn (pats : List Chars) : Chars → Option Chars
  | [] => none
  | c :: rest =>
    match pats.find? (fun p => p.isPrefixOf (c :: rest)) with
    | some p => some p
    | none => findFirstIn pats rest

def dateCondOf (q : Chars) (now : CivilDT) (absParse : Chars → Option CivilDT) : Option DateRange :=
  match findFirstIn relKeywords (lowerText q) with
  | some k => getDateFilter k now
  | none =>
    match findAbsDate q with
    | some ds =>
      match absParse (normalizeUnderscores ds) with
      | some d => some ⟨⟨d.year, d.month, d.day, 0, 0, 0, 0⟩, ⟨d.year, d.month, d.day, 23, 59, 59, 999⟩⟩
      | none => none
    | none => none

/-- agent.js `parseQuery`: incrementally assembled predicate set; a
final general-query / component-list test discards all built
constraints and returns the unconstrained predicate. -/
def parseQuery (q : Chars) (now : CivilDT) (absParse : Chars → Option CivilDT) : MongoQuery :=
  let qa := analyzeQuery q
  let c1 :=
    match scanBatch q with
    | some b =>
      { emptyQuery with
        batch_id := some (if b.any (fun c => c = '_' || c = ':' || c = '-')
                          then BatchCond.exact b else BatchCond.regexI b) }
    | none => emptyQuery
  let c2 :=
    match scanComponent q with
    | some cm => { c1 with component_name := some cm }
    | none => c1
  let c3 := { c2 with date := dateCondOf q now absParse }
  let c4 := if qa.isNGQuery then { c3 with ng_parts := true } else c3
  let c5 := if perfTest q then { c4 with orCond := some OrCond.perfQuality } else c4
  let c6 :=
    match scanProduction q with
    | some ds => { c5 with orCond := some (OrCond.production (digitsToNat ds)) }
    | none => c5
  if qa.isGeneralQuery || qa.isComponentList then emptyQuery else c6

-- ===== aggregation router =====

/-- One aggregation stage of the four fixed pipeline shapes of
agent.js `handleAggregationQuery`. -/
inductive AggStage
  /-- `{ $match: { ng_parts: { $exists: true, $gt: 0 } } }` -/
  | matchNgPositive
  /-- `{ $sort: { field: -1 } }` (`descending = true` is `-1`). -/
  | sortBy (field : Chars) (descending : Bool)
  /-- `{ $limit: n }` -/
  | limit (n : Nat)
  /-- `{ $group: { _id: "$component_name", total_batches: {$sum: 1},
      total_production: {$sum: "$actual_production"},
      latest_date: {$max: "$date"} } }` -/
  | groupByComponent
deriving DecidableEq

/-- agent.js `handleAggregationQuery`: mutually exclusive pipeline
selection by priority (NG, then component list, then generic
aggregation, then default). -/
def handleAggregationQuery (qa : QueryAnalysis) : List AggStage :=
  if qa.isNGQuery then
    [AggStage.matchNgPositive, AggStage.sortBy ("ng_parts".data) true, AggStage.limit 10]
  else if qa.isComponentList then
    [AggStage.groupByComponent, AggStage.sortBy ("total_production".data) true]
  else if qa.needsAggregation then
    [AggStage.sortBy ("actual_production".data) true, AggStage.limit 10]
  else
    [AggStage.sortBy ("date".data) true, AggStage.limit 20]

-- ===== store / pipeline orchestration =====

/-- A thrown JS error, reduced to its `message`. -/
structure JsErr where
  message : Chars
deriving DecidableEq

/-- One row of the `Defects` collection. -/
structure DefectRow where
  defect_id : Nat
  defect_class : Chars
  description : Chars
  is_acceptable : Chars
  defect_type : Chars
deriving DecidableEq

/-- A generic `Reports` record with the fields the pipeline reads
(`Quality`/`Performance`/`Availability` are the capitalized source
fields; the stored date is kept opaque). -/
structure ReportRecord where
  batch_id : Chars
  component_name : Chars
  date : Chars
  actual_production : Int
  ok_parts : Int
  ng_parts : Int
  defect_occurrences : Option (List Int)
  ocr_defect_occurrences : Option (List Int)
  dimensional_defect_occurrences : Option (List Int)
  quality : Option Chars
  performance : Option Chars
  availability : Option Chars
deriving DecidableEq

/-- The projected, defect-enriched record shape the generic path
serializes (agent.js lines 287-338: per-record enrichment via
`mapDefectOccurrences` followed by field projection). -/
structure FormattedReport where
  batch_id : Chars
  component_name : Chars
  date : Chars
  actual_production : Int
  ok_parts : Int
  ng_parts : Int
  defect_occurrences : Option (List (Chars × MappedDefect))
  ocr_defect_occurrences : Option (List (Chars × MappedDefect))
  dimensional_defect_occurrences : Option (List (Chars × MappedDefect))
  quality : Option Chars
  performance : Option Chars
  availability : Option Chars
deriving DecidableEq

/-- The MongoDB collaborator of one invocation.  `γ` is the (opaque)
shape of component-partition documents; `partition name` models
`db.collection(name).find({}).limit(20).toArray()`.  `Except.error`
models a thrown driver error. -/
structure DBStore (γ : Type) where
  connect : Except JsErr Unit
  close : Except JsErr Unit
  find : MongoQuery → Except JsErr (List ReportRecord)
  aggregate : List AggStage → Except JsErr (List ReportRecord)
  partition : Chars → Except JsErr (List γ)
  defects : Except JsErr (List DefectRow)

/-- Environment configuration relevant to the pipeline. -/
structure AgentEnv where
  mongoUri : Option Chars

/-- agent.js `getDefectInfo`: loads the catalog and builds an
id-keyed lookup (later rows with the same id overwrite earlier ones,
as JS object assignment does); any error yields the empty map. -/
def getDefectInfo (store : DBStore γ) : Nat → Option DefectInfo :=
  match store.defects with
  | Except.error _ => fun _ => none
  | Except.ok rows => fun id =>
    (rows.reverse.find? (fun r => decide (r.defect_id = id))).map
      (fun r => ⟨r.defect_class, r.description, r.is_acceptable, r.defect_type⟩)

/-- Enrichment plus projection of one generic report (agent.js maps
each raw occurrence array through `mapDefectOccurrences` with the
fixed category, then projects the stable field set). -/
def formatEnhanced (dm : Nat → Option DefectInfo) (r : ReportRecord) : FormattedReport :=
  { batch_id := r.batch_id
    component_name := r.component_name
    date := r.date
    actual_production := r.actual_production
    ok_parts := r.ok_parts
    ng_parts := r.ng_parts
    defect_occurrences := r.defect_occurrences.map (fun a => mapDefectOccurrences a dm ("object_detection".data))
    ocr_defect_occurrences := r.ocr_defect_occurrences.map (fun a => mapDefectOccurrences a dm ("ocr".data))
    dimensional_defect_occurrences := r.dimensional_defect_occurrences.map (fun a => mapDefectOccurrences a dm ("dimensional".data))
    quality := r.quality
    performance := r.performance
    availability := r.availability }

/-- Message of `queryComponentDetails` for an existing but empty
partition. -/
def emptyCollectionMsg (name : Chars) : Chars :=
  "No data found in collection '".data ++ (name ++ "'. The collection exists but is empty.".data)

/-- Message of `queryComponentDetails` when the name is unusable as a
collection name. -/
def invalidNameMsg (name : Chars) : Chars :=
  "Error: Invalid component name '".data ++ (name ++ "'. Please check the component name and try again.".data)

/-- Message of `queryComponentDetails` when no collection exists for
the component. -/
def noCollectionMsg (name : Chars) : Chars :=
  "Error: No collection found for component '".data ++ (name ++ "'. Please verify the component name exists in the database.".data)

/-- Fallback message of `queryComponentDetails` for an uncategorized
error. -/
def genericComponentErr (name : Chars) (m : Chars) : Chars :=
  "Error querying component '".data ++ (name ++ ("': ".data ++ m))

/-- agent.js `queryComponentDetails`: query the component-named
partition; an empty partition gets its explicit message; a thrown
driver error is classified by substring of its message (invalid name,
then missing collection, then generic); non-empty results go through
the nested per-image formatter, modelled by the opaque serializer
`fmtC` (the source also fetches the defect map here but never uses it
in this formatter). -/
def queryComponentDetails (store : DBStore γ) (fmtC : List γ → Chars) (name : Chars) : Chars :=
  match store.partition name with
  | Except.ok comps =>
    if comps.isEmpty then emptyCollectionMsg name else fmtC comps
  | Except.error e =>
    if hasSub ("collection name must be a string".data) e.message then invalidNameMsg name
    else if hasSub ("ns not found".data) e.message || hasSub ("Collection".data) e.message then
      noCollectionMsg name
    else genericComponentErr name e.message

/-- `Error querying database: ${message}` (the catch-all of
`queryMongoDB`). -/
def dbErrorMsg (m : Chars) : Chars := "Error querying database: ".data ++ m

/-- agent.js `queryMongoDB` after a successful connection: route to
the component partition when a delimited name is present; otherwise
load the defect catalog, classify, and run either the chosen
aggregation pipeline or the built find predicate; enrich and project;
an empty record set returns the sentinel string, otherwise the records
are serialized by the opaque `fmtR` (`JSON.stringify`). -/
def queryMongoDBCore (store : DBStore γ) (fmtC : List γ → Chars) (fmtR : List FormattedReport → Chars)
    (now : CivilDT) (absParse : Chars → Option CivilDT) (q : Chars) : Chars :=
  match store.connect with
  | Except.error e => dbErrorMsg e.message
  | Except.ok _ =>
    match extractComponentName q with
    | some name => queryComponentDetails store fmtC name
    | none =>
      let dm := getDefectInfo store
      let qa := analyzeQuery q
      let res :=
        if qa.needsAggregation || qa.isComponentList then store.aggregate (handleAggregationQuery qa)
        else store.find (parseQuery q now absParse)
      match res with
      | Except.error e => dbErrorMsg e.message
      | Except.ok results =>
        let formatted := results.map (formatEnhanced dm)
        if formatted.isEmpty then "No production reports found matching your query.".data
        else fmtR formatted

/-- agent.js `queryMongoDB`: a missing `MONGODB_URI` throws inside the
`try` and is converted to text by the local catch; otherwise the body
runs.  Always returns text (every body failure is modelled in
`queryMongoDBCore` / the store oracle messages). -/
def queryMongoDB (env : AgentEnv) (store : DBStore γ) (fmtC : List γ → Chars) (fmtR : List FormattedReport → Chars)
    (now : CivilDT) (absParse : Chars → Option CivilDT) (q : Chars) : Chars :=
  match env.mongoUri with
  | none => dbErrorMsg ("MONGODB_URI is not set in environment variables".data)
  | some _ => queryMongoDBCore store fmtC fmtR now absParse q

/-- `queryMongoDB` as seen by its caller, with the `finally` clause:
when a client was created, `client.close()` runs last and an error it
throws escapes past `queryMongoDB`'s catch. -/
def queryMongoDBE (env : AgentEnv) (store : DBStore γ) (fmtC : List γ → Chars) (fmtR : List FormattedReport → Chars)
    (now : CivilDT) (absParse : Chars → Option CivilDT) (q : Chars) : Except JsErr Chars :=
  match env.mongoUri with
  | none => Except.ok (dbErrorMsg ("MONGODB_URI is not set in environment variables".data))
  | some _ =>
    match store.close with
    | Except.error e => Except.error e
    | Except.ok _ => Except.ok (queryMongoDBCore store fmtC fmtR now absParse q)

-- ===== entry-point function returned by initializeProductionAgent =====

/-- The component-keyword vocabulary of the guidance guard. -/
def kwComponentList : List Chars :=
  [("component".data), ("part".data), ("inspect".data), ("defect".data),
   ("status".data), ("decision".data), ("image".data)]

/-- `/component|part|inspect|defect|status|decision|image/i.test(question.toLowerCase())` -/
def hasComponentKeywords (q : Chars) : Bool := anySub kwComponentList (lowerText q)

/-- The fixed guidance message returned when component keywords appear
without a delimited component name. -/
def guidanceMessage : Chars :=
  ("I can help you with component inspection details! Please specify the component name using quotes or asterisks, for example:\n          - Please use this format to get exact results:    \n          - use single quotes, double quotes, or asterisks to specify the component name.\n          \n          Here are some examples of valid component queries:\n          - Show inspection summary of the component 'Component_Name'\n          - What is the status of \"9PLY_NORMAL\"?\n          - Display inspection results for *Marie*\n          - Show defects for 'PCN_PRT_25FT'\n\n          This helps me identify exactly which component you're asking about.").data

/-- What the composed prompt depends on (the prompt template bodies
are excluded collaborator plumbing, per the spec). -/
structure LMPrompt where
  isComponentQuery : Bool
  question : Chars
  dbResults : Chars

/-- The catch handler of the entry-point function: invalid-credential
errors get their specific message, everything else the fixed
fallback. -/
def agentCatch (e : JsErr) : Chars :=
  if hasSub ("API_KEY_INVALID".data) e.message || hasSub ("API key not valid".data) e.message then
    "Error: Invalid Google Gemini API key. Please check your API key configuration.".data
  else
    "Sorry, I encountered an error processing your request. Please try again.".data

/-- The `try` body of the entry-point function: guidance guard, then
the database query, then the language-model call (`lm` models
`model.generateContent` + `response.text()`). -/
def answerTry (env : AgentEnv) (store : DBStore γ) (lm : LMPrompt → Except JsErr Chars)
    (fmtC : List γ → Chars) (fmtR : List FormattedReport → Chars)
    (now : CivilDT) (absParse : Chars → Option CivilDT) (question : Chars) : Except JsErr Chars :=
  if hasComponentKeywords question && (extractComponentName question).isNone then
    Except.ok guidanceMessage
  else
    match queryMongoDBE env store fmtC fmtR now absParse question with
    | Except.error e => Except.error e
    | Except.ok dbResults =>
      match lm ⟨(extractComponentName question).isSome, question, dbResults⟩ with
      | Except.error e => Except.error e
      | Except.ok text => Except.ok text

/-- The entry-point function `answer(question)` with its surrounding
try/catch, in the exception-transparent view: a result of
`Except.error` would mean an exception escaping to the caller. -/
def answerExc (env : AgentEnv) (store : DBStore γ) (lm : LMPrompt → Except JsErr Chars)
    (fmtC : List γ → Chars) (fmtR : List FormattedReport → Chars)
    (now : CivilDT) (absParse : Chars → Option CivilDT) (question : Chars) : Except JsErr Chars :=
  match answerTry env store lm fmtC fmtR now absParse question with
  | Except.ok s => Except.ok s
  | Except.error e => Except.ok (agentCatch e)

/-- The text result of the entry-point function. -/
def answer (env : AgentEnv) (store : DBStore γ) (lm : LMPrompt → Except JsErr Chars)
    (fmtC : List γ → Chars) (fmtR : List FormattedReport → Chars)
    (now : CivilDT) (absParse : Chars → Option CivilDT) (question : Chars) : Chars :=
  match answerTry env store lm fmtC fmtR now absParse question with
  | Except.ok s => s
  | Except.error e => agentCatch e

-- ===== concrete collaborator instances used by witnesses =====

def envTriv : AgentEnv := { mongoUri := some ("mongodb://localhost".data) }

def storeTriv : DBStore Unit :=
  { connect := Except.ok ()
    close := Except.ok ()
    find := fun _ => Except.ok []
    aggregate := fun _ => Except.ok []
    partition := fun _ => Except.ok []
    defects := Except.ok [] }

def lmTriv : LMPrompt → Except JsErr Chars := fun _ => Except.ok ("FINAL ANSWER: ok".data)

def fmtCTriv : List Unit → Chars := fun _ => []

def fmtRTriv : List FormattedReport → Chars := fun _ => []

def absParseTriv : Chars → Option CivilDT := fun _ => none

def nowTriv : CivilDT := ⟨2025, 2, 15, 10, 30, 0, 0⟩

-- ===== sanity examples (environment assumptions) =====

example : (-1 : Int) / 12 = -1 := by decide
example : (-1 : Int) % 12 = 11 := by decide
example : (-1 : Int) / 1000 = -1 := by decide
example : (-1 : Int) % 1000 = 999 := by decide
example : extractComponentName ("inspect 'ABC_1'".data) = some ("ABC_1".data) := by decide
example : extractComponentName ("see \"DQ\" and *A*".data) = some ("DQ".data) := by decide
example : extractComponentName ("no name here".data) = none := by decide
example : lowerText ("Show NG Parts".data) = "show ng parts".data := by decide
example : hasSub ("ng".data) ("show ng parts".data) = true := by decide
example : hasThen ("what".data) ("component".data) ("what is the component".data) = true := by decide

example : jsGetDay ⟨2026, 9, 11, 0, 0, 0, 0⟩ = 0 := by decide
example : jsGetDay ⟨2025, 2, 15, 0, 0, 0, 0⟩ = 6 := by decide
example : jsGetDay ⟨2025, 0, 1, 0, 0, 0, 0⟩ = 3 := by decide
example : jsGetDay ⟨2024, 1, 29, 0, 0, 0, 0⟩ = 4 := by decide
example : getDateFilter ("last month".data) ⟨2025, 2, 15, 10, 30, 0, 0⟩ =
    some ⟨⟨2025, 1, 1, 0, 0, 0, 0⟩, ⟨2025, 1, 28, 23, 59, 59, 999⟩⟩ := by decide
example : getDateFilter ("last month".data) ⟨2024, 0, 15, 10, 30, 0, 0⟩ =
    some ⟨⟨2023, 11, 1, 0, 0, 0, 0⟩, ⟨2023, 11, 31, 23, 59, 59, 999⟩⟩ := by decide
example : getDateFilter ("yesterday".data) ⟨2025, 2, 1, 10, 30, 0, 0⟩ =
    some ⟨⟨2025, 1, 28, 0, 0, 0, 0⟩, ⟨2025, 1, 28, 23, 59, 59, 999⟩⟩ := by decide
example : getDateFilter ("last week".data) ⟨2025, 2, 15, 10, 30, 0, 0⟩ =
    some ⟨⟨2025, 2, 2, 0, 0, 0, 0⟩, ⟨2025, 2, 8, 23, 59, 59, 999⟩⟩ := by decide

-- ===== helper lemmas =====

theorem takeWhile_all_append {p : Char → Bool} (l : Chars) (b : Char) (t : Chars)
    (hl : ∀ a ∈ l, p a = true) (hb : p b = false) : (l ++ b :: t).takeWhile p = l := by
  induction l with
  | nil => simp [List.takeWhile_cons, hb]
  | cons a l ih =>
    have ha : p a = true := hl a (List.mem_cons_self a l)
    simp only [List.cons_append, List.takeWhile_cons, ha, if_true]
    rw [ih (fun x hx => hl x (List.mem_cons_of_mem a hx))]

theorem firstDelimited_of_split (d : Char) (pre content suf : Chars)
    (hpre : d ∉ pre) (hc : content ≠ []) (hcd : d ∉ content) :
    firstDelimited d (pre ++ d :: (content ++ d :: suf)) = some content := by
  induction pre with
  | nil =>
    have htw : (content ++ d :: suf).takeWhile (fun x => x != d) = content := by
      apply takeWhile_all_append
      · intro a ha
        exact bne_iff_ne.2 (fun h => hcd (h ▸ ha))
      · simp
    have hlen : content.length < (content ++ d :: suf).length := by
      simp [List.length_append]
    have hemp : content.isEmpty = false := by
      cases content with
      | nil => exact absurd rfl hc
      | cons a l => rfl
    simp [firstDelimited, htw, hlen, hemp]
  | cons a pre ih =>
    have had : ¬ a = d := fun h => hpre (by simp [h])
    simp only [List.cons_append, firstDelimited, if_neg had]
    exact ih (fun h => hpre (List.mem_cons_of_mem a h))

theorem append_ne_of_get (p1 p2 r1 r2 : Chars) (i : Nat)
    (h1 : i < p1.length) (h2 : i < p2.length) (hne : p1.get? i ≠ p2.get? i) :
    p1 ++ r1 ≠ p2 ++ r2 := by
  intro h
  apply hne
  rw [← List.get?_append h1, ← List.get?_append h2, h]

-- ===== claim theorems =====

/-- Claim C4: `extractComponentName` precedence is fixed — the first
single-quoted substring, else the first double-quoted substring, else
the first asterisk-delimited substring, else `none`; in particular
`extractComponentName "inspect 'ABC_1'"` is exactly `ABC_1`, and a
quoted name beats an asterisk-delimited one.  The fifth conjunct
characterizes "first delimited substring": at the first delimiter of
the text, the maximal delimiter-free non-empty run that is closed by a
delimiter is returned. -/
theorem extractComponentName_precedence :
    (∀ q c, firstDelimited squote q = some c → extractComponentName q = some c) ∧
    (∀ q c, firstDelimited squote q = none → firstDelimited '"' q = some c →
      extractComponentName q = some c) ∧
    (∀ q c, firstDelimited squote q = none → firstDelimited '"' q = none →
      firstDelimited '*' q = some c → extractComponentName q = some c) ∧
    (∀ q, firstDelimited squote q = none → firstDelimited '"' q = none →
      firstDelimited '*' q = none → extractComponentName q = none) ∧
    (∀ (d : Char) (pre content suf : Chars), d ∉ pre → content ≠ [] → d ∉ content →
      firstDelimited d (pre ++ d :: (content ++ d :: suf)) = some content) ∧
    extractComponentName ("inspect 'ABC_1'".data) = some ("ABC_1".data) ∧
    extractComponentName ("batch 'Q1' vs *A2*".data) = some ("Q1".data) := by
  refine ⟨?_, ?_, ?_, ?_, firstDelimited_of_split, by decide, by decide⟩
  · intro q c h; simp [extractComponentName, h]
  · intro q c h1 h2; simp [extractComponentName, h1, h2]
  · intro q c h1 h2 h3; simp [extractComponentName, h1, h2, h3]
  · intro q h1 h2 h3; simp [extractComponentName, h1, h2, h3]

theorem extractComponentName_precedence_witness :
    firstDelimited squote ("go *AST*".data) = none ∧
    firstDelimited '"' ("go *AST*".data) = none ∧
    extractComponentName ("go *AST*".data) = some ("AST".data) :=
  ⟨by decide, by decide,
    extractComponentName_precedence.2.2.1 _ _ (by decide) (by decide) (by decide)⟩

/-- Claim C6: whenever the classified intent has `isNGQuery` set, the
aggregation router picks exactly match(ng_parts exists and > 0), sort
ng_parts descending, limit 10, regardless of the other flags (NG has
priority over the component-list, generic-aggregation and default
shapes); and "show batches with most ng parts" classifies as an
NG query that is routed to the aggregation path
(`needsAggregation || isComponentList` holds) with exactly that
pipeline. -/
theorem handleAggregationQuery_ng_priority :
    (∀ q, (analyzeQuery q).isNGQuery = true →
      handleAggregationQuery (analyzeQuery q) =
        [AggStage.matchNgPositive, AggStage.sortBy ("ng_parts".data) true, AggStage.limit 10]) ∧
    ((analyzeQuery ("show batches with most ng parts".data)).isNGQuery = true ∧
     ((analyzeQuery ("show batches with most ng parts".data)).needsAggregation ||
      (analyzeQuery ("show batches with most ng parts".data)).isComponentList) = true ∧
     handleAggregationQuery (analyzeQuery ("show batches with most ng parts".data)) =
       [AggStage.matchNgPositive, AggStage.sortBy ("ng_parts".data) true, AggStage.limit 10]) := by
  constructor
  · intro q h; simp [handleAggregationQuery, h]
  · exact ⟨by decide, by decide, by decide⟩

theorem handleAggregationQuery_ng_priority_witness :
    (analyzeQuery ("which lots were rejected".data)).isNGQuery = true ∧
    handleAggregationQuery (analyzeQuery ("which lots were rejected".data)) =
      [AggStage.matchNgPositive, AggStage.sortBy ("ng_parts".data) true, AggStage.limit 10] :=
  ⟨by decide, handleAggregationQuery_ng_priority.1 _ (by decide)⟩

/-- Claim C9: for every delimited component name, the three
component-lookup outcomes produce three pairwise distinct messages —
partition exists but is empty; no partition resolves to the name
("ns not found" / "Collection" driver errors); name unusable as a
lookup key ("collection name must be a string" driver error). -/
theorem queryComponentDetails_messages :
    (∀ (γ : Type) (store : DBStore γ) (fmtC : List γ → Chars) (name : Chars),
      store.partition name = Except.ok [] →
      queryComponentDetails store fmtC name = emptyCollectionMsg name) ∧
    (∀ (γ : Type) (store : DBStore γ) (fmtC : List γ → Chars) (name : Chars) (e : JsErr),
      store.partition name = Except.error e →
      hasSub ("collection name must be a string".data) e.message = true →
      queryComponentDetails store fmtC name = invalidNameMsg name) ∧
    (∀ (γ : Type) (store : DBStore γ) (fmtC : List γ → Chars) (name : Chars) (e : JsErr),
      store.partition name = Except.error e →
      hasSub ("collection name must be a string".data) e.message = false →
      (hasSub ("ns not found".data) e.message || hasSub ("Collection".data) e.message) = true →
      queryComponentDetails store fmtC name = noCollectionMsg name) ∧
    (∀ name : Chars,
      emptyCollectionMsg name ≠ noCollectionMsg name ∧
      emptyCollectionMsg name ≠ invalidNameMsg name ∧
      noCollectionMsg name ≠ invalidNameMsg name) := by
  refine ⟨?_, ?_, ?_, ?_⟩
  · intro γ store fmtC name h
    simp [queryComponentDetails, h]
  · intro γ store fmtC name e h he
    simp [queryComponentDetails, h, he]
  · intro γ store fmtC name e h hinv hcol
    simp [queryComponentDetails, h, hinv, hcol]
  · intro name
    refine ⟨?_, ?_, ?_⟩
    · exact append_ne_of_get _ _ _ _ 0 (by decide) (by decide) (by decide)
    · exact append_ne_of_get _ _ _ _ 0 (by decide) (by decide) (by decide)
    · exact append_ne_of_get _ _ _ _ 7 (by decide) (by decide) (by decide)

theorem queryComponentDetails_messages_witness :
    queryComponentDetails storeTriv fmtCTriv ("X".data) = emptyCollectionMsg ("X".data) ∧
    queryComponentDetails
      ({ storeTriv with partition := fun _ => Except.error ⟨("ns not found".data)⟩ } : DBStore Unit)
      fmtCTriv ("X".data) = noCollectionMsg ("X".data) ∧
    queryComponentDetails
      ({ storeTriv with partition := fun _ => Except.error ⟨("collection name must be a string".data)⟩ } : DBStore Unit)
      fmtCTriv ("X".data) = invalidNameMsg ("X".data) ∧
    emptyCollectionMsg ("X".data) ≠ noCollectionMsg ("X".data) :=
  ⟨queryComponentDetails_messages.1 Unit storeTriv fmtCTriv _ rfl,
   queryComponentDetails_messages.2.2.1 Unit _ fmtCTriv _ ⟨("ns not found".data)⟩ rfl (by decide) (by decide),
   queryComponentDetails_messages.2.1 Unit _ fmtCTriv _ ⟨("collection name must be a string".data)⟩ rfl (by decide),
   (queryComponentDetails_messages.2.2.2 ("X".data)).1⟩

/-- Claim C10: a question that case-insensitively contains one of the
component keywords (component, part, inspect, defect, status,
decision, image) but has no single-quoted, double-quoted or
asterisk-delimited substring makes the entry-point function return
the fixed guidance message — for every store and language-model
collaborator, so neither is consulted. -/
theorem answer_guidance_guard (γ : Type) (env : AgentEnv) (store : DBStore γ)
    (lm : LMPrompt → Except JsErr Chars) (fmtC : List γ → Chars) (fmtR : List FormattedReport → Chars)
    (now : CivilDT) (absParse : Chars → Option CivilDT) (q : Chars)
    (hkw : hasComponentKeywords q = true) (hnone : extractComponentName q = none) :
    answer env store lm fmtC fmtR now absParse q = guidanceMessage := by
  simp [answer, answerTry, hkw, hnone]

theorem answer_guidance_guard_witness :
    hasComponentKeywords ("what part is broken".data) = true ∧
    extractComponentName ("what part is broken".data) = none ∧
    answer envTriv storeTriv lmTriv fmtCTriv fmtRTriv nowTriv absParseTriv
      ("what part is broken".data) = guidanceMessage :=
  ⟨by decide, by decide,
   answer_guidance_guard Unit envTriv storeTriv lmTriv fmtCTriv fmtRTriv nowTriv absParseTriv _
     (by decide) (by decide)⟩

/-- Claim C5: for every question and every behavior of the
collaborators (store operations, defect-catalog load, language-model
call — each free to fail), the entry-point function returns text: its
exception-transparent semantics is always `Except.ok`, never
`Except.error`. -/
theorem answerExc_never_throws (γ : Type) (env : AgentEnv) (store : DBStore γ)
    (lm : LMPrompt → Except JsErr Chars) (fmtC : List γ → Chars) (fmtR : List FormattedReport → Chars)
    (now : CivilDT) (absParse : Chars → Option CivilDT) (q : Chars) :
    ∃ s, answerExc env store lm fmtC fmtR now absParse q = Except.ok s ∧
      answer env store lm fmtC fmtR now absParse q = s := by
  unfold answerExc answer
  cases answerTry env store lm fmtC fmtR now absParse q with
  | ok s => exact ⟨s, rfl, rfl⟩
  | error e => exact ⟨agentCatch e, rfl, rfl⟩

/-- Claim C2 counterexample: on the component-collection path an empty
record set does not return the generic sentinel: for the question
`inspect 'X'` against a store whose partition `X` exists and is empty,
the pipeline returns the collection-specific message instead of
"No production reports found matching your query.". -/
theorem queryMongoDB_component_empty_cex :
    queryMongoDB envTriv storeTriv fmtCTriv fmtRTriv nowTriv absParseTriv ("inspect 'X'".data) =
      emptyCollectionMsg ("X".data) ∧
    emptyCollectionMsg ("X".data) ≠ "No production reports found matching your query.".data := by
  exact ⟨by decide, by decide⟩

/-- Claim C2 amended: an empty record set returns the literal sentinel
"No production reports found matching your query." on the plain-find
and aggregation paths (no delimited component name in the question);
the component-partition path instead returns its collection-specific
empty message. -/
theorem queryMongoDB_empty_sentinel :
    (∀ (γ : Type) (store : DBStore γ) (fmtC : List γ → Chars) (fmtR : List FormattedReport → Chars)
       (now : CivilDT) (absParse : Chars → Option CivilDT) (q u : Chars),
      store.connect = Except.ok () →
      extractComponentName q = none →
      store.aggregate (handleAggregationQuery (analyzeQuery q)) = Except.ok [] →
      store.find (parseQuery q now absParse) = Except.ok [] →
      queryMongoDB ⟨some u⟩ store fmtC fmtR now absParse q =
        "No production reports found matching your query.".data) ∧
    (∀ (γ : Type) (store : DBStore γ) (fmtC : List γ → Chars) (fmtR : List FormattedReport → Chars)
       (now : CivilDT) (absParse : Chars → Option CivilDT) (q u name : Chars),
      store.connect = Except.ok () →
      extractComponentName q = some name →
      store.partition name = Except.ok [] →
      queryMongoDB ⟨some u⟩ store fmtC fmtR now absParse q = emptyCollectionMsg name) := by
  constructor
  · intro γ store fmtC fmtR now absParse q u hconn hname hagg hfind
    by_cases hb : ((analyzeQuery q).needsAggregation || (analyzeQuery q).isComponentList) = true
    · simp [queryMongoDB, queryMongoDBCore, hconn, hname, hb, hagg]
    · simp only [Bool.not_eq_true] at hb
      simp [queryMongoDB, queryMongoDBCore, hconn, hname, hb, hfind]
  · intro γ store fmtC fmtR now absParse q u name hconn hname hpart
    simp [queryMongoDB, queryMongoDBCore, hconn, hname, queryComponentDetails, hpart]

theorem queryMongoDB_empty_sentinel_witness :
    extractComponentName ("show production of yesterday".data) = none ∧
    queryMongoDB ⟨some ("mongodb://localhost".data)⟩ storeTriv fmtCTriv fmtRTriv nowTriv absParseTriv
      ("show production of yesterday".data) =
      "No production reports found matching your query.".data ∧
    extractComponentName ("inspect 'PART_9'".data) = some ("PART_9".data) ∧
    queryMongoDB ⟨some ("mongodb://localhost".data)⟩ storeTriv fmtCTriv fmtRTriv nowTriv absParseTriv
      ("inspect 'PART_9'".data) = emptyCollectionMsg ("PART_9".data) :=
  ⟨by decide,
   queryMongoDB_empty_sentinel.1 Unit storeTriv fmtCTriv fmtRTriv nowTriv absParseTriv _ _
     rfl (by decide) rfl rfl,
   by decide,
   queryMongoDB_empty_sentinel.2 Unit storeTriv fmtCTriv fmtRTriv nowTriv absParseTriv _ _ _
     rfl (by decide) rfl⟩

theorem mem_mapDefWrites (dm : Nat → Option DefectInfo) (dt : Chars) (k : Nat) (occ : List Int)
    (p : Chars × MappedDefect) :
    p ∈ mapDefWrites dm dt k occ ↔
      ∃ j v, occ.get? j = some v ∧ 0 < v ∧
        p = (defectLabel dm (k + j), defectEntry dm dt (k + j) v) := by
  induction occ generalizing k with
  | nil => simp [mapDefWrites]
  | cons c rest ih =>
    simp only [mapDefWrites]
    by_cases hc : 0 < c
    · rw [if_pos hc]
      simp only [List.mem_cons, ih (k + 1)]
      constructor
      · rintro (rfl | ⟨j, v, hj, hv, rfl⟩)
        · exact ⟨0, c, by simp, hc, by simp⟩
        · refine ⟨j + 1, v, by simpa using hj, hv, ?_⟩
          rw [show k + (j + 1) = k + 1 + j from by omega]
      · rintro ⟨j, v, hj, hv, rfl⟩
        cases j with
        | zero =>
          left
          obtain rfl : c = v := by simpa using hj
          simp
        | succ j =>
          right
          refine ⟨j, v, by simpa using hj, hv, ?_⟩
          rw [show k + (j + 1) = k + 1 + j from by omega]
    · rw [if_neg hc]
      rw [ih (k + 1)]
      constructor
      · rintro ⟨j, v, hj, hv, rfl⟩
        refine ⟨j + 1, v, by simpa using hj, hv, ?_⟩
        rw [show k + (j + 1) = k + 1 + j from by omega]
      · rintro ⟨j, v, hj, hv, rfl⟩
        cases j with
        | zero =>
          obtain rfl : c = v := by simpa using hj
          omega
        | succ j =>
          refine ⟨j, v, by simpa using hj, hv, ?_⟩
          rw [show k + (j + 1) = k + 1 + j from by omega]

/-- Claim C1 counterexample: the claim fails when the catalog assigns
the same class name to two defect ids: with counts `[5, 7]` and a
catalog mapping ids 1 and 2 both to class `A`, index 1 (id 2)
overwrites index 0 (id 1) in the JS object, so the positive-count
entry of index 0 is silently dropped. -/
theorem mapDefectOccurrences_label_collision_cex :
    ¬ C1Property [5, 7]
        (fun i => if i = 1 then some ⟨("A".data), ("d1".data), ("yes".data), ("t".data)⟩
                  else if i = 2 then some ⟨("A".data), ("d2".data), ("yes".data), ("t".data)⟩
                  else none)
        ("object_detection".data) := by decide

/-- Claim C1 amended: provided the labels emitted for distinct
positive-count indices are distinct (e.g. the catalog assigns distinct
class names), `mapDefectOccurrences` contains an entry for index `i`
exactly when the count at `i` is positive; the entry corresponds to
defect id `i + 1`; an id missing from the catalog is emitted under the
`Unknown_Defect_{i+1}` label with description
`Unknown defect with ID {i+1}`; no positive-count entry is dropped and
no zero-count entry appears. -/
theorem mapDefectOccurrences_correct_of_distinct_labels
    (occ : List Int) (dm : Nat → Option DefectInfo) (dt : Chars)
    (hinj : ∀ i ∈ List.range occ.length, ∀ j ∈ List.range occ.length,
      0 < occ.getD i 0 → 0 < occ.getD j 0 →
      defectLabel dm i = defectLabel dm j → i = j) :
    C1Property occ dm dt := by
  have hgetD : ∀ (i : Nat) (hi : i < occ.length), occ.getD i 0 = occ.get ⟨i, hi⟩ := by
    intro i hi
    rw [List.getD_eq_get?, List.get?_eq_get hi]
    rfl
  constructor
  · intro i hir hpos
    have hi : i < occ.length := List.mem_range.1 hir
    have hget : occ.get? i = some (occ.getD i 0) := by
      rw [hgetD i hi]; exact List.get?_eq_get hi
    have hx : (defectLabel dm i, defectEntry dm dt i (occ.getD i 0)) ∈
        mapDefectOccurrences occ dm dt := by
      rw [mapDefectOccurrences, mem_mapDefWrites]
      exact ⟨i, occ.getD i 0, hget, hpos, by simp⟩
    unfold objGet
    have hsome : ((mapDefectOccurrences occ dm dt).reverse.find?
        (fun p => decide (p.1 = defectLabel dm i))).isSome := by
      rw [List.find?_isSome]
      exact ⟨_, List.mem_reverse.2 hx, by simp⟩
    cases hfind : (mapDefectOccurrences occ dm dt).reverse.find?
        (fun p => decide (p.1 = defectLabel dm i)) with
    | none => rw [hfind] at hsome; simp at hsome
    | some q =>
      have hq1 : q.1 = defectLabel dm i := by
        have := List.find?_some hfind
        simpa using this
      have hqmem : q ∈ mapDefectOccurrences occ dm dt :=
        List.mem_reverse.1 (List.mem_of_find?_eq_some hfind)
      rw [mapDefectOccurrences, mem_mapDefWrites] at hqmem
      obtain ⟨j, v, hj, hv, hq⟩ := hqmem
      simp only [Nat.zero_add] at hq
      obtain ⟨hjlen, hjv⟩ := List.get?_eq_some.1 hj
      have hjd : occ.getD j 0 = v := by rw [hgetD j hjlen]; exact hjv
      have hlab : defectLabel dm j = defectLabel dm i := by rw [hq] at hq1; exact hq1
      have hji : j = i :=
        hinj j (List.mem_range.2 hjlen) i hir (by rw [hjd]; exact hv) hpos hlab
      subst hji
      rw [hq, hjd]
      rfl
  · intro p hp
    rw [mapDefectOccurrences, mem_mapDefWrites] at hp
    obtain ⟨j, v, hj, hv, rfl⟩ := hp
    obtain ⟨hjlen, hjv⟩ := List.get?_eq_some.1 hj
    have hjd : occ.getD j 0 = v := by rw [hgetD j hjlen]; exact hjv
    refine ⟨j, List.mem_range.2 hjlen, ?_, ?_⟩
    · rw [hjd]; exact hv
    · rw [hjd, Nat.zero_add]

theorem mapDefectOccurrences_correct_witness :
    (∀ i ∈ List.range ([5, 0, 7] : List Int).length,
      ∀ j ∈ List.range ([5, 0, 7] : List Int).length,
      0 < ([5, 0, 7] : List Int).getD i 0 → 0 < ([5, 0, 7] : List Int).getD j 0 →
      defectLabel (fun i => if i = 1 then
          some ⟨("Ink_Spot".data), ("ink mark".data), ("no".data), ("object_detection".data)⟩
        else none) i =
      defectLabel (fun i => if i = 1 then
          some ⟨("Ink_Spot".data), ("ink mark".data), ("no".data), ("object_detection".data)⟩
        else none) j → i = j) ∧
    C1Property [5, 0, 7]
      (fun i => if i = 1 then
          some ⟨("Ink_Spot".data), ("ink mark".data), ("no".data), ("object_detection".data)⟩
        else none)
      ("object_detection".data) :=
  ⟨by decide, mapDefectOccurrences_correct_of_distinct_labels _ _ _ (by decide)⟩

-- ===== date arithmetic lemmas =====

theorem daysInMonth_bounds (y m : Int) : 28 ≤ daysInMonth y m ∧ daysInMonth y m ≤ 31 := by
  unfold daysInMonth
  split_ifs <;> norm_num

theorem pMonth_bounds (m : Int) (h0 : 0 ≤ m) (h1 : m ≤ 11) : 0 ≤ pMonth m ∧ pMonth m ≤ 11 := by
  unfold pMonth
  split_ifs <;> omega

theorem jsGetDay_bounds (t : CivilDT) : 0 ≤ jsGetDay t ∧ jsGetDay t < 7 := by
  unfold jsGetDay
  exact ⟨Int.emod_nonneg _ (by norm_num), Int.emod_lt_of_pos _ (by norm_num)⟩

theorem normDayFuel_inRange (fuel : Nat) (hf : 1 ≤ fuel) (y m d : Int)
    (h1 : 1 ≤ d) (h2 : d ≤ daysInMonth y m) : normDayFuel fuel y m d = (y, m, d) := by
  obtain ⟨n, rfl⟩ : ∃ n, fuel = n + 1 := ⟨fuel - 1, by omega⟩
  simp only [normDayFuel]
  rw [if_neg (by omega), if_neg (by omega)]

theorem normDayFuel_borrow (fuel : Nat) (hf : 2 ≤ fuel) (y m d : Int) (hd : d ≤ 0)
    (h1 : 1 ≤ d + daysInMonth (pYear y m) (pMonth m)) :
    normDayFuel fuel y m d = (pYear y m, pMonth m, d + daysInMonth (pYear y m) (pMonth m)) := by
  obtain ⟨n, rfl⟩ : ∃ n, fuel = (n + 1) + 1 := ⟨fuel - 2, by omega⟩
  simp only [normDayFuel]
  rw [if_pos (by omega)]
  exact normDayFuel_inRange (n + 1) (by omega) _ _ _ h1
    (by have := daysInMonth_bounds (pYear y m) (pMonth m); omega)

theorem normYMD_inRange (y m d : Int) (hm0 : 0 ≤ m) (hm1 : m ≤ 11)
    (hd1 : 1 ≤ d) (hd2 : d ≤ daysInMonth y m) : normYMD y m d = (y, m, d) := by
  unfold normYMD
  have e9 : m / 12 = 0 := by omega
  have e10 : m % 12 = m := by omega
  rw [e9, e10, add_zero]
  exact normDayFuel_inRange _ (by omega) _ _ _ hd1 hd2

theorem normYMD_borrowNeg (y m d : Int) (hm0 : 0 ≤ m) (hm1 : m ≤ 11) (hd : d ≤ 0)
    (h1 : 1 ≤ d + daysInMonth (pYear y m) (pMonth m)) :
    normYMD y m d = (pYear y m, pMonth m, d + daysInMonth (pYear y m) (pMonth m)) := by
  unfold normYMD
  have e9 : m / 12 = 0 := by omega
  have e10 : m % 12 = m := by omega
  rw [e9, e10, add_zero]
  exact normDayFuel_borrow _ (by omega) _ _ _ hd h1

theorem normYMD_day0 (y m : Int) (hm0 : 0 ≤ m) (hm1 : m ≤ 11) :
    normYMD y m 0 = (pYear y m, pMonth m, daysInMonth (pYear y m) (pMonth m)) := by
  rw [normYMD_borrowNeg y m 0 hm0 hm1 le_rfl
    (by have := daysInMonth_bounds (pYear y m) (pMonth m); omega)]
  norm_num

theorem normYMD_monthMinus1_day1 (y m : Int) (hm0 : 0 ≤ m) (hm1 : m ≤ 11) :
    normYMD y (m - 1) 1 = (pYear y m, pMonth m, 1) := by
  unfold normYMD pYear pMonth
  by_cases hm : m = 0
  · subst hm
    norm_num
    rw [normDayFuel_inRange _ (by omega) _ _ _ (by norm_num)
      (by have := daysInMonth_bounds (y + -1) 11; omega)]
    rw [show y + (-1 : Int) = y - 1 from by ring]
  · rw [if_neg hm, if_neg hm]
    have e9 : (m - 1) / 12 = 0 := by omega
    have e10 : (m - 1) % 12 = m - 1 := by omega
    rw [e9, e10, add_zero]
    exact normDayFuel_inRange _ (by omega) _ _ _ (by norm_num)
      (by have := daysInMonth_bounds y (m - 1); omega)

theorem normDT_validTime (y m d h mi s ms : Int)
    (hh0 : 0 ≤ h) (hh1 : h ≤ 23) (hmi0 : 0 ≤ mi) (hmi1 : mi ≤ 59)
    (hs0 : 0 ≤ s) (hs1 : s ≤ 59) (hms0 : 0 ≤ ms) (hms1 : ms ≤ 999) :
    normDT y m d h mi s ms =
      ⟨(normYMD y m d).1, (normYMD y m d).2.1, (normYMD y m d).2.2, h, mi, s, ms⟩ := by
  simp only [normDT]
  have e1 : ms / 1000 = 0 := by omega
  have e2 : ms % 1000 = ms := by omega
  have e3 : s / 60 = 0 := by omega
  have e4 : s % 60 = s := by omega
  have e5 : mi / 60 = 0 := by omega
  have e6 : mi % 60 = mi := by omega
  have e7 : h / 24 = 0 := by omega
  have e8 : h % 24 = h := by omega
  rw [e1, e2, add_zero, e3, e4, add_zero, e5, e6, add_zero, e7, e8, add_zero]

theorem normDT_zero_neg1 (y m d : Int) :
    normDT y m d 0 0 0 (-1) =
      ⟨(normYMD y m (d - 1)).1, (normYMD y m (d - 1)).2.1, (normYMD y m (d - 1)).2.2,
       23, 59, 59, 999⟩ := by
  simp only [normDT]
  norm_num
  rw [show d + (-1 : Int) = d - 1 from by ring]
  exact ⟨rfl, rfl, rfl⟩

theorem mkJSDate_valid (y m d h mi s ms : Int)
    (hm0 : 0 ≤ m) (hm1 : m ≤ 11) (hd1 : 1 ≤ d) (hd2 : d ≤ daysInMonth y m)
    (hh0 : 0 ≤ h) (hh1 : h ≤ 23) (hmi0 : 0 ≤ mi) (hmi1 : mi ≤ 59)
    (hs0 : 0 ≤ s) (hs1 : s ≤ 59) (hms0 : 0 ≤ ms) (hms1 : ms ≤ 999) :
    mkJSDate y m d h mi s ms = ⟨y, m, d, h, mi, s, ms⟩ := by
  unfold mkJSDate
  rw [normDT_validTime _ _ _ _ _ _ _ hh0 hh1 hmi0 hmi1 hs0 hs1 hms0 hms1,
    normYMD_inRange _ _ _ hm0 hm1 hd1 hd2]

theorem setMs_neg1 (t : CivilDT) (hm0 : 0 ≤ t.month) (hm1 : t.month ≤ 11)
    (hd1 : 1 ≤ t.day) (hd2 : t.day ≤ daysInMonth t.year t.month)
    (hh : t.hour = 0) (hmi : t.minute = 0) (hs : t.second = 0) :
    jsSetMilliseconds t (-1) = lastInstantOfPrevDay t.year t.month t.day := by
  unfold jsSetMilliseconds
  rw [hh, hmi, hs, normDT_zero_neg1]
  unfold lastInstantOfPrevDay
  by_cases hd : 1 < t.day
  · rw [normYMD_inRange _ _ _ hm0 hm1 (by omega) (by omega), if_pos hd]
  · have h1 : t.day = 1 := by omega
    rw [h1]
    norm_num
    rw [normYMD_day0 _ _ hm0 hm1]
    exact ⟨rfl, rfl, rfl⟩

theorem startOfDayD_valid (now : CivilDT) (h : ValidDT now) :
    startOfDayD now = ⟨now.year, now.month, now.day, 0, 0, 0, 0⟩ := by
  obtain ⟨h1, h2, h3, h4, -⟩ := id h
  exact mkJSDate_valid _ _ _ _ _ _ _ h1 h2 h3 h4 (by norm_num) (by norm_num) (by norm_num)
    (by norm_num) (by norm_num) (by norm_num) (by norm_num) (by norm_num)

theorem endOfDayD_valid (now : CivilDT) (h : ValidDT now) :
    endOfDayD now = ⟨now.year, now.month, now.day, 23, 59, 59, 999⟩ := by
  obtain ⟨h1, h2, h3, h4, -⟩ := id h
  exact mkJSDate_valid _ _ _ _ _ _ _ h1 h2 h3 h4 (by norm_num) (by norm_num) (by norm_num)
    (by norm_num) (by norm_num) (by norm_num) (by norm_num) (by norm_num)

theorem startOfMonthD_eq (now : CivilDT) (h : ValidDT now) :
    startOfMonthD now = ⟨now.year, now.month, 1, 0, 0, 0, 0⟩ := by
  obtain ⟨h1, h2, -⟩ := id h
  exact mkJSDate_valid _ _ _ _ _ _ _ h1 h2 (by norm_num)
    (by have := daysInMonth_bounds now.year now.month; omega) (by norm_num) (by norm_num)
    (by norm_num) (by norm_num) (by norm_num) (by norm_num) (by norm_num) (by norm_num)

theorem startOfLastMonthD_eq (now : CivilDT) (h : ValidDT now) :
    startOfLastMonthD now = ⟨pYear now.year now.month, pMonth now.month, 1, 0, 0, 0, 0⟩ := by
  obtain ⟨h1, h2, -⟩ := id h
  unfold startOfLastMonthD mkJSDate
  rw [normDT_validTime _ _ _ _ _ _ _ (by norm_num) (by norm_num) (by norm_num) (by norm_num)
    (by norm_num) (by norm_num) (by norm_num) (by norm_num),
    normYMD_monthMinus1_day1 _ _ h1 h2]

theorem endOfLastMonthD_eq (now : CivilDT) (h : ValidDT now) :
    endOfLastMonthD now =
      ⟨pYear now.year now.month, pMonth now.month,
       daysInMonth (pYear now.year now.month) (pMonth now.month), 23, 59, 59, 999⟩ := by
  obtain ⟨h1, h2, -⟩ := id h
  unfold endOfLastMonthD mkJSDate
  rw [normDT_validTime _ _ _ _ _ _ _ (by norm_num) (by norm_num) (by norm_num) (by norm_num)
    (by norm_num) (by norm_num) (by norm_num) (by norm_num),
    normYMD_day0 _ _ h1 h2]

theorem weekStart_facts (y m d w : Int) (hm0 : 0 ≤ m) (hm1 : m ≤ 11) (hd1 : 1 ≤ d)
    (hd2 : d ≤ daysInMonth y m) (hw0 : 0 ≤ w) (hw1 : w < 7) :
    ∃ Y M D, normYMD y m (d - w) = (Y, M, D) ∧ 0 ≤ M ∧ M ≤ 11 ∧ 1 ≤ D ∧ D ≤ daysInMonth Y M := by
  by_cases hcase : 1 ≤ d - w
  · exact ⟨y, m, d - w, normYMD_inRange _ _ _ hm0 hm1 hcase (by omega), hm0, hm1, hcase, by omega⟩
  · have hdim := daysInMonth_bounds (pYear y m) (pMonth m)
    have hpm := pMonth_bounds m hm0 hm1
    exact ⟨pYear y m, pMonth m, d - w + daysInMonth (pYear y m) (pMonth m),
      normYMD_borrowNeg _ _ _ hm0 hm1 (by omega) (by omega), hpm.1, hpm.2, by omega, by omega⟩

theorem startOfWeekD_facts (now : CivilDT) (h : ValidDT now) :
    startOfWeekD now =
      ⟨(startOfWeekD now).year, (startOfWeekD now).month, (startOfWeekD now).day, 0, 0, 0, 0⟩ ∧
    0 ≤ (startOfWeekD now).month ∧ (startOfWeekD now).month ≤ 11 ∧
    1 ≤ (startOfWeekD now).day ∧
    (startOfWeekD now).day ≤ daysInMonth (startOfWeekD now).year (startOfWeekD now).month := by
  obtain ⟨h1, h2, h3, h4, -⟩ := id h
  have hw := jsGetDay_bounds (startOfDayD now)
  obtain ⟨Y, M, D, hymd, hb1, hb2, hb3, hb4⟩ :=
    weekStart_facts now.year now.month now.day (jsGetDay (startOfDayD now)) h1 h2 h3 h4 hw.1 hw.2
  have hsw : startOfWeekD now = ⟨Y, M, D, 0, 0, 0, 0⟩ := by
    unfold startOfWeekD jsSetDate
    rw [startOfDayD_valid now h]
    show normDT now.year now.month
      (now.day - jsGetDay (⟨now.year, now.month, now.day, 0, 0, 0, 0⟩ : CivilDT)) 0 0 0 0 = _
    rw [normDT_validTime _ _ _ _ _ _ _ (by norm_num) (by norm_num) (by norm_num) (by norm_num)
      (by norm_num) (by norm_num) (by norm_num) (by norm_num)]
    rw [show jsGetDay (⟨now.year, now.month, now.day, 0, 0, 0, 0⟩ : CivilDT) =
        jsGetDay (startOfDayD now) from by rw [startOfDayD_valid now h]]
    rw [hymd]
  rw [hsw]
  exact ⟨rfl, hb1, hb2, hb3, hb4⟩

theorem getDateFilter_at_today (now : CivilDT) :
    getDateFilter ("today".data) now = some ⟨startOfDayD now, endOfDayD now⟩ := by
  simp only [getDateFilter]
  rw [if_pos (by decide)]

theorem getDateFilter_at_yesterday (now : CivilDT) :
    getDateFilter ("yesterday".data) now = some ⟨startOfYesterdayD now, endOfYesterdayD now⟩ := by
  simp only [getDateFilter]
  rw [if_neg (by decide), if_pos (by decide)]

theorem getDateFilter_at_thisWeek (now : CivilDT) :
    getDateFilter ("this week".data) now = some ⟨startOfWeekD now, endOfDayD now⟩ := by
  simp only [getDateFilter]
  rw [if_neg (by decide), if_neg (by decide), if_pos (by decide)]

theorem getDateFilter_at_lastWeek (now : CivilDT) :
    getDateFilter ("last week".data) now = some ⟨startOfLastWeekD now, endOfLastWeekD now⟩ := by
  simp only [getDateFilter]
  rw [if_neg (by decide), if_neg (by decide), if_neg (by decide), if_pos (by decide)]

theorem getDateFilter_at_thisMonth (now : CivilDT) :
    getDateFilter ("this month".data) now = some ⟨startOfMonthD now, endOfDayD now⟩ := by
  simp only [getDateFilter]
  rw [if_neg (by decide), if_neg (by decide), if_neg (by decide), if_neg (by decide),
    if_pos (by decide)]

theorem getDateFilter_at_lastMonth (now : CivilDT) :
    getDateFilter ("last month".data) now = some ⟨startOfLastMonthD now, endOfLastMonthD now⟩ := by
  simp only [getDateFilter]
  rw [if_neg (by decide), if_neg (by decide), if_neg (by decide), if_neg (by decide),
    if_neg (by decide), if_pos (by decide)]

/-- Claim C7: for every current instant, `getDateFilter "last month"`
returns the closed interval (`$gte`/`$lte`, both inclusive) from
00:00:00.000 on the first calendar day of the previous month to
23:59:59.999 on the last calendar day of the previous month. -/
theorem getDateFilter_lastMonth_bounds (now : CivilDT) (h : ValidDT now) :
    getDateFilter ("last month".data) now =
      some ⟨⟨pYear now.year now.month, pMonth now.month, 1, 0, 0, 0, 0⟩,
            ⟨pYear now.year now.month, pMonth now.month,
             daysInMonth (pYear now.year now.month) (pMonth now.month), 23, 59, 59, 999⟩⟩ := by
  rw [getDateFilter_at_lastMonth, startOfLastMonthD_eq now h, endOfLastMonthD_eq now h]

theorem getDateFilter_lastMonth_bounds_witness :
    ValidDT nowTriv ∧
    getDateFilter ("last month".data) nowTriv =
      some ⟨⟨2025, 1, 1, 0, 0, 0, 0⟩, ⟨2025, 1, 28, 23, 59, 59, 999⟩⟩ :=
  ⟨by decide, getDateFilter_lastMonth_bounds nowTriv (by decide)⟩

/-- Claim C8 counterexample: the upper bound for "today" is the end of
the current day (23:59:59.999), not the current instant: at
2025-03-15 10:30:00.000 the returned upper bound differs from `now`. -/
theorem getDateFilter_today_upper_cex :
    (getDateFilter ("today".data) ⟨2025, 2, 15, 10, 30, 0, 0⟩).map DateRange.lte ≠
      some ⟨2025, 2, 15, 10, 30, 0, 0⟩ := by decide

/-- Claim C8 amended: all six intervals are closed (`$gte`/`$lte`,
both bounds inclusive); for "today", "this week" and "this month" the
upper bound is the last instant (23:59:59.999) of the current day —
not the current instant itself — and for "yesterday", "last week" and
"last month" the upper bound is the exact last instant of the prior
period: 23:59:59.999 of the calendar day preceding the corresponding
current period's start (the current day, the week start, the first of
the month). -/
theorem getDateFilter_upper_bounds (now : CivilDT) (h : ValidDT now) :
    (getDateFilter ("today".data) now).map DateRange.lte =
        some ⟨now.year, now.month, now.day, 23, 59, 59, 999⟩ ∧
    (getDateFilter ("this week".data) now).map DateRange.lte =
        some ⟨now.year, now.month, now.day, 23, 59, 59, 999⟩ ∧
    (getDateFilter ("this month".data) now).map DateRange.lte =
        some ⟨now.year, now.month, now.day, 23, 59, 59, 999⟩ ∧
    (getDateFilter ("yesterday".data) now).map DateRange.lte =
        some (lastInstantOfPrevDay now.year now.month now.day) ∧
    (getDateFilter ("last week".data) now).map DateRange.lte =
        some (lastInstantOfPrevDay (startOfWeekD now).year (startOfWeekD now).month
          (startOfWeekD now).day) ∧
    (getDateFilter ("last month".data) now).map DateRange.lte =
        some (lastInstantOfPrevDay now.year now.month 1) := by
  obtain ⟨h1, h2, h3, h4, -⟩ := id h
  have hsd := startOfDayD_valid now h
  have hed := endOfDayD_valid now h
  refine ⟨?_, ?_, ?_, ?_, ?_, ?_⟩
  · rw [getDateFilter_at_today, hed]; rfl
  · rw [getDateFilter_at_thisWeek, hed]; rfl
  · rw [getDateFilter_at_thisMonth, hed]; rfl
  · have he : endOfYesterdayD now = lastInstantOfPrevDay now.year now.month now.day := by
      unfold endOfYesterdayD
      rw [hsd]
      exact setMs_neg1 _ h1 h2 h3 h4 rfl rfl rfl
    rw [getDateFilter_at_yesterday, he]; rfl
  · have hf := startOfWeekD_facts now h
    have he : endOfLastWeekD now =
        lastInstantOfPrevDay (startOfWeekD now).year (startOfWeekD now).month
          (startOfWeekD now).day := by
      unfold endOfLastWeekD
      exact setMs_neg1 _ hf.2.1 hf.2.2.1 hf.2.2.2.1 hf.2.2.2.2
        (by rw [hf.1]) (by rw [hf.1]) (by rw [hf.1])
    rw [getDateFilter_at_lastWeek, he]; rfl
  · have hli : lastInstantOfPrevDay now.year now.month 1 =
        ⟨pYear now.year now.month, pMonth now.month,
         daysInMonth (pYear now.year now.month) (pMonth now.month), 23, 59, 59, 999⟩ := by
      unfold lastInstantOfPrevDay
      rw [if_neg (by norm_num)]
    rw [getDateFilter_at_lastMonth, endOfLastMonthD_eq now h, hli]; rfl

theorem getDateFilter_upper_bounds_witness :
    ValidDT nowTriv ∧
    (getDateFilter ("today".data) nowTriv).map DateRange.lte =
      some ⟨2025, 2, 15, 23, 59, 59, 999⟩ ∧
    (getDateFilter ("yesterday".data) nowTriv).map DateRange.lte =
      some ⟨2025, 2, 14, 23, 59, 59, 999⟩ :=
  ⟨by decide, (getDateFilter_upper_bounds nowTriv (by decide)).1,
   (getDateFilter_upper_bounds nowTriv (by decide)).2.2.2.1⟩

theorem parseQuery_date_field (q : Chars) (now : CivilDT) (absParse : Chars → Option CivilDT)
    (hg : ((analyzeQuery q).isGeneralQuery || (analyzeQuery q).isComponentList) = false) :
    (parseQuery q now absParse).date = dateCondOf q now absParse := by
  unfold parseQuery
  rw [if_neg (by simp [hg])]
  cases scanBatch q <;> cases scanComponent q <;>
    by_cases hp : perfTest q <;> cases scanProduction q <;>
    by_cases hn : (analyzeQuery q).isNGQuery <;>
    simp [hp, hn]

/-- Claim C3: when a question contains both a relative period keyword
and an absolute digit-pattern date (in either order), the date
condition built by `parseQuery`'s date-filtering block is the one
resolved from the (leftmost) relative keyword via `getDateFilter`, and
the absolute date contributes no constraint (the result does not
depend on the platform date parser at all); when the built conditions
are returned (no general-query/component-list discard), the returned
`date` predicate is exactly that relative filter. -/
theorem parseQuery_date_relative_precedence :
    (∀ (q : Chars) (now : CivilDT) (absParse : Chars → Option CivilDT) (k : Chars),
      findFirstIn relKeywords (lowerText q) = some k →
      (findAbsDate q).isSome = true →
      dateCondOf q now absParse = getDateFilter k now) ∧
    (∀ (q : Chars) (now : CivilDT) (absParse : Chars → Option CivilDT) (k : Chars),
      findFirstIn relKeywords (lowerText q) = some k →
      (findAbsDate q).isSome = true →
      ((analyzeQuery q).isGeneralQuery || (analyzeQuery q).isComponentList) = false →
      (parseQuery q now absParse).date = getDateFilter k now) := by
  constructor
  · intro q now absParse k hrel _
    simp [dateCondOf, hrel]
  · intro q now absParse k hrel habs hg
    rw [parseQuery_date_field q now absParse hg]
    simp [dateCondOf, hrel]

theorem parseQuery_date_relative_precedence_witness :
    findFirstIn relKeywords (lowerText ("reports today 24_02_2025".data)) = some ("today".data) ∧
    (findAbsDate ("reports today 24_02_2025".data)).isSome = true ∧
    dateCondOf ("reports today 24_02_2025".data) nowTriv absParseTriv =
      getDateFilter ("today".data) nowTriv ∧
    (parseQuery ("reports today 24_02_2025".data) nowTriv absParseTriv).date =
      getDateFilter ("today".data) nowTriv :=
  ⟨by decide, by decide,
   parseQuery_date_relative_precedence.1 _ nowTriv absParseTriv _ (by decide) (by decide),
   parseQuery_date_relative_precedence.2 _ nowTriv absParseTriv _ (by decide) (by decide) (by decide)⟩
